import Mathlib

/-!
Shallow embedding of the usage-metering and billing core of the skyvps360
VPS-reselling application, together with theorems settling the frozen
claims about it.

The embedding follows the TypeScript source:
  * the drizzle schema (users, servers, server_metrics, billing_transactions);
  * the DatabaseStorage methods getUser, updateUserBalance,
    createTransaction, deleteServer, getAllServers, getTransactionsByUser;
  * the hourly billing job deductHourlyServerCosts in server/routes.ts;
  * the bandwidth aggregator getServerBandwidth, processBandwidthOverage,
    getServerMonthlyPrice, calculateBandwidthOverages;
  * the POST /api/billing/capture/:orderId and GET /api/billing/transactions
    route handlers.

Database rows are Lean structures, the database is an explicit Store value,
one awaited statement is one step on the Store.  Monetary amounts are
integer cents; the floating-point dollar arithmetic of the source is
embedded as rational arithmetic, with Math.round embedded as
floor (x + 1/2), which agrees with the JavaScript function on the values
considered here.  Timestamps are abstract integers.  Calls to the
DigitalOcean collaborator (deleteDroplet) are recorded in a trace; variants
suffixed E take an oracle saying which provider or per-server calls throw,
an exception being modelled as Except.error carrying the store at the
moment of the throw.
-/

namespace SkyVps

/-- A row of the users table: the balance is an integer number of cents
(schema: balance integer notNull default 0). -/
structure User where
  id : Int
  balance : Int
  deriving Repr, DecidableEq

/-- A row of the servers table, restricted to the fields the billing core
reads (id, userId, name, dropletId, size, status). -/
structure Server where
  id : Int
  userId : Int
  name : String
  dropletId : String
  size : String
  status : String
  deriving Repr, DecidableEq

/-- A row of the billing_transactions table (the id column is elided; the
schema has no description column). -/
structure BillingTransaction where
  userId : Int
  amount : Int
  currency : String
  status : String
  type : String
  paypalTransactionId : Option String
  createdAt : Int
  deriving Repr, DecidableEq

/-- A row of the server_metrics table, restricted to the fields the
bandwidth aggregator reads.  networkIn and networkOut are byte counters
(integer notNull in the schema, so the defensive null-guard of the source
is the identity). -/
structure ServerMetric where
  serverId : Int
  timestamp : Int
  networkIn : Int
  networkOut : Int
  deriving Repr, DecidableEq

/-- The relational database of the application, restricted to the tables
the billing core touches. -/
structure Store where
  users : List User
  servers : List Server
  transactions : List BillingTransaction
  metrics : List ServerMetric
  deriving Repr, DecidableEq

/-- storage.getUser: select the user row with the given id. -/
def getUser (st : Store) (id : Int) : Option User :=
  st.users.find? (fun u => u.id == id)

/-- storage.updateUserBalance: the single SQL statement
update users set balance = balance + amount where id = userId.
The whole read-modify-write is one step on the Store. -/
def updateUserBalance (st : Store) (userId : Int) (amount : Int) : Store :=
  { st with
    users := st.users.map (fun u =>
      if u.id == userId then { u with balance := u.balance + amount } else u) }

/-- storage.createTransaction: append-only insert into
billing_transactions. -/
def createTransaction (st : Store) (t : BillingTransaction) : Store :=
  { st with transactions := st.transactions ++ [t] }

/-- storage.deleteServer: delete from servers where id = the given id. -/
def deleteServer (st : Store) (id : Int) : Store :=
  { st with servers := st.servers.filter (fun s => !(s.id == id)) }

/-- storage.getAllServers: select every server row. -/
def getAllServers (st : Store) : List Server :=
  st.servers

/-- The balance of an account, when the account exists. -/
def balanceOf (st : Store) (userId : Int) : Option Int :=
  (getUser st userId).map (fun u => u.balance)

/-- The sum of the amounts of the completed transactions of an account. -/
def completedSum (st : Store) (userId : Int) : Int :=
  ((st.transactions.filter
      (fun t => t.userId == userId && t.status == "completed")).map
    (fun t => t.amount)).sum

/-- Insertion step for the embedding of order by created_at ascending. -/
def insertByCreatedAt (t : BillingTransaction) :
    List BillingTransaction → List BillingTransaction
  | [] => [t]
  | u :: us =>
      if t.createdAt ≤ u.createdAt then t :: u :: us
      else u :: insertByCreatedAt t us

/-- SQL order by created_at, which drizzle emits ascending by default. -/
def orderByCreatedAt (l : List BillingTransaction) : List BillingTransaction :=
  l.foldr insertByCreatedAt []

/-- storage.getTransactionsByUser: the rows of billing_transactions whose
user_id matches, ordered by created_at ascending. -/
def getTransactionsByUser (st : Store) (userId : Int) : List BillingTransaction :=
  orderByCreatedAt (st.transactions.filter (fun t => t.userId == userId))

/-- GET /api/billing/transactions: the handler calls
getTransactionsByUser and returns the bare array.  The page and limit
query parameters sent by the billing page are never read by the handler,
so they are unused arguments here. -/
def apiBillingTransactions (st : Store) (userId : Int)
    (page pageSize : Int) : List BillingTransaction :=
  getTransactionsByUser st userId

/-- Math.round on the rational embedding of JavaScript numbers. -/
def jsRound (x : ℚ) : Int :=
  Int.floor (x + 1 / 2)

/-- toCents in server/routes.ts: Math.round(dollars * 100). -/
def toCents (dollars : ℚ) : Int :=
  jsRound (dollars * 100)

/-- The effect of one run of the hourly billing loop: the resulting store
together with the droplet ids passed to digitalOcean.deleteDroplet. -/
structure TickResult where
  store : Store
  teardowns : List String
  deriving Repr, DecidableEq

/-- The transaction row written by the hourly job for one charged server. -/
def hourlyChargeTxn (userId : Int) (now : Int) : BillingTransaction :=
  { userId := userId, amount := -100, currency := "USD",
    status := "completed", type := "hourly_server_charge",
    paypalTransactionId := none, createdAt := now }

/-- The insolvent branch of the hourly loop body: tell the provider to
destroy the droplet, then delete the server row. -/
def reclaimServer (r : TickResult) (s : Server) : TickResult :=
  { store := deleteServer r.store s.id,
    teardowns := r.teardowns ++ [s.dropletId] }

/-- The solvent branch of the hourly loop body: add -100 to the balance
and insert the hourly_server_charge transaction row. -/
def chargeServer (r : TickResult) (s : Server) (now : Int) : TickResult :=
  { r with
    store := createTransaction (updateUserBalance r.store s.userId (-100))
      (hourlyChargeTxn s.userId now) }

/-- One iteration of the loop of deductHourlyServerCosts: fetch the owner;
a missing owner or a balance below 100 cents means reclamation, otherwise
the server is charged. -/
def processServer (r : TickResult) (s : Server) (now : Int) : TickResult :=
  match getUser r.store s.userId with
  | none => reclaimServer r s
  | some u => if u.balance < 100 then reclaimServer r s else chargeServer r s now

/-- The hourly loop run over an explicit list of servers. -/
def runTick (now : Int) (r : TickResult) (l : List Server) : TickResult :=
  l.foldl (fun r s => processServer r s now) r

/-- deductHourlyServerCosts in server/routes.ts: iterate the loop body over
the snapshot returned by getAllServers. -/
def deductHourlyServerCosts (st : Store) (now : Int) : TickResult :=
  runTick now ⟨st, []⟩ (getAllServers st)

/-- One iteration of the hourly loop when digitalOcean.deleteDroplet may
throw: the oracle names the droplet ids whose teardown call throws.  The
loop body has no try/catch, so a throw aborts with the store unchanged
(the provider call precedes both storage writes of the branch); the
charging branch makes no provider call. -/
def processServerE (provFails : String → Bool) (r : TickResult) (s : Server)
    (now : Int) : Except TickResult TickResult :=
  match getUser r.store s.userId with
  | none =>
      if provFails s.dropletId then Except.error r
      else Except.ok (reclaimServer r s)
  | some u =>
      if u.balance < 100 then
        if provFails s.dropletId then Except.error r
        else Except.ok (reclaimServer r s)
      else Except.ok (chargeServer r s now)

/-- The hourly loop under the failure oracle: an uncaught exception ends
the whole loop, keeping the mutations already made. -/
def runTickE (provFails : String → Bool) (now : Int) :
    TickResult → List Server → TickResult
  | r, [] => r
  | r, s :: rest =>
      match processServerE provFails r s now with
      | Except.ok r2 => runTickE provFails now r2 rest
      | Except.error r2 => r2

/-- deductHourlyServerCosts under the provider-failure oracle. -/
def deductHourlyServerCostsE (provFails : String → Bool) (st : Store)
    (now : Int) : TickResult :=
  runTickE provFails now ⟨st, []⟩ (getAllServers st)

/-- The static size-to-bandwidth-limit table of getServerBandwidth,
in GB. -/
def sizeToLimit : List (String × Int) :=
  [("s-1vcpu-1gb", 1000), ("s-1vcpu-2gb", 2000), ("s-2vcpu-2gb", 3000),
   ("s-2vcpu-4gb", 4000), ("s-4vcpu-8gb", 5000), ("s-8vcpu-16gb", 6000)]

/-- sizeToLimit[server.size] with the default of 1000 GB used by the source when the
size is not in the table. -/
def bandwidthLimitFor (size : String) : Int :=
  (sizeToLimit.lookup size).getD 1000

/-- The static size-to-monthly-price table of getServerMonthlyPrice,
in dollars. -/
def sizePrices : List (String × Int) :=
  [("s-1vcpu-1gb", 5), ("s-1vcpu-2gb", 10), ("s-2vcpu-2gb", 15),
   ("s-2vcpu-4gb", 20), ("s-4vcpu-8gb", 40), ("s-8vcpu-16gb", 80)]

/-- getServerMonthlyPrice: table lookup with the default of 5 dollars. -/
def getServerMonthlyPrice (size : String) : Int :=
  (sizePrices.lookup size).getD 5

/-- The fixed overage rate of the aggregator: 0.005. -/
def overageRate : ℚ :=
  5 / 1000

/-- parseFloat(x.toFixed(2)): round to two decimal places. -/
def round2 (x : ℚ) : ℚ :=
  (jsRound (x * 100) : ℚ) / 100

/-- The drizzle query of getServerBandwidth: metrics of the server whose
timestamp satisfies gte(periodStart) and lte(periodEnd).  periodStart and
periodEnd stand for the startOfMonth and endOfMonth values the source
computes from the wall clock. -/
def monthMetrics (st : Store) (serverId periodStart periodEnd : Int) :
    List ServerMetric :=
  st.metrics.filter (fun m =>
    m.serverId == serverId && decide (periodStart ≤ m.timestamp) &&
      decide (m.timestamp ≤ periodEnd))

/-- The record returned by getServerBandwidth (lastUpdated elided). -/
structure BandwidthInfo where
  current : ℚ
  limit : Int
  periodStart : Int
  periodEnd : Int
  overageRate : ℚ
  deriving Repr, DecidableEq

/-- getServerBandwidth: sum the in and out byte counters over the metrics
of the month, convert bytes to GB dividing by 1024^3, report the usage
rounded to two decimals and the size-based limit. -/
def getServerBandwidth (st : Store) (server : Server)
    (periodStart periodEnd : Int) : BandwidthInfo :=
  let metrics := monthMetrics st server.id periodStart periodEnd
  let totalNetworkIn := metrics.foldl (fun acc m => acc + m.networkIn) 0
  let totalNetworkOut := metrics.foldl (fun acc m => acc + m.networkOut) 0
  let totalUsageGB : ℚ :=
    ((totalNetworkIn + totalNetworkOut : Int) : ℚ) / (1024 * 1024 * 1024)
  { current := round2 totalUsageGB,
    limit := bandwidthLimitFor server.size,
    periodStart := periodStart,
    periodEnd := periodEnd,
    overageRate := overageRate }

/-- The transaction row written by processBandwidthOverage.  The source
also passes a description string, but billing_transactions has no
description column, so the row is embedded without it.  Note the amount is
the positive overageCostCents. -/
def bandwidthOverageTxn (server : Server) (cents : Int) (now : Int) :
    BillingTransaction :=
  { userId := server.userId, amount := cents, currency := "USD",
    status := "completed", type := "bandwidth_overage",
    paypalTransactionId := none, createdAt := now }

/-- processBandwidthOverage: no effect when usage is at or under the
limit; otherwise charge overageGB * (monthlyPrice * overageRate), rounded
to cents, skipping non-positive amounts; the transaction row is inserted
and then the balance is decremented by the same number of cents. -/
def processBandwidthOverage (st : Store) (server : Server)
    (periodStart periodEnd now : Int) : Store :=
  let bw := getServerBandwidth st server periodStart periodEnd
  if bw.current ≤ (bw.limit : ℚ) then st
  else
    let overageGB : ℚ := bw.current - (bw.limit : ℚ)
    let serverMonthlyPrice := getServerMonthlyPrice server.size
    let overageCost : ℚ := overageGB * ((serverMonthlyPrice : ℚ) * bw.overageRate)
    let overageCostCents : Int := jsRound (overageCost * 100)
    if overageCostCents ≤ 0 then st
    else
      updateUserBalance
        (createTransaction st (bandwidthOverageTxn server overageCostCents now))
        server.userId (-overageCostCents)

/-- The overageCostCents value computed inside processBandwidthOverage,
named so that theorems can speak about it. -/
def overageCents (st : Store) (server : Server) (periodStart periodEnd : Int) : Int :=
  jsRound
    (((getServerBandwidth st server periodStart periodEnd).current
        - ((getServerBandwidth st server periodStart periodEnd).limit : ℚ))
      * ((getServerMonthlyPrice server.size : ℚ)
        * (getServerBandwidth st server periodStart periodEnd).overageRate) * 100)

/-- The filter at the top of calculateBandwidthOverages: only servers with
status active are settled. -/
def activeServers (st : Store) : List Server :=
  st.servers.filter (fun s => s.status == "active")

/-- The per-server settlement loop of calculateBandwidthOverages, run over
an explicit list of servers. -/
def settleList (st : Store) (l : List Server) (periodStart periodEnd now : Int) :
    Store :=
  l.foldl (fun acc s => processBandwidthOverage acc s periodStart periodEnd now) st

/-- calculateBandwidthOverages: exit when there is no active server or the
clock is not on the last day of the month, otherwise settle every active
server.  isLastDayOfMonth stands for the comparison the source makes of
now.getDate() with the computed end of month. -/
def calculateBandwidthOverages (st : Store) (periodStart periodEnd now : Int)
    (isLastDayOfMonth : Bool) : Store :=
  let active := activeServers st
  if active.isEmpty then st
  else if !isLastDayOfMonth then st
  else settleList st active periodStart periodEnd now

/-- The settlement loop when the work for a server may throw: both the
loop body of calculateBandwidthOverages and processBandwidthOverage itself
catch the error and continue with the next server, so a failing server
contributes nothing.  The oracle names the failing servers by id; the
failure is modelled at the initial bandwidth read, before any write. -/
def settleListE (provFails : Int → Bool) (st : Store) (l : List Server)
    (periodStart periodEnd now : Int) : Store :=
  l.foldl (fun acc s =>
    if provFails s.id then acc
    else processBandwidthOverage acc s periodStart periodEnd now) st

/-- calculateBandwidthOverages under the per-server failure oracle. -/
def calculateBandwidthOveragesE (provFails : Int → Bool) (st : Store)
    (periodStart periodEnd now : Int) (isLastDayOfMonth : Bool) : Store :=
  let active := activeServers st
  if active.isEmpty then st
  else if !isLastDayOfMonth then st
  else settleListE provFails st active periodStart periodEnd now

/-- The successful result of the PayPal capture call, as the capture route
destructures it: a payment id and a dollar amount. -/
structure CaptureResult where
  paymentId : String
  amount : ℚ
  deriving Repr, DecidableEq

/-- POST /api/billing/capture/:orderId: when capturePayment throws, the
catch block answers with status 400 and nothing was written; on success
the balance is incremented by toCents(amount) and a completed deposit
transaction carrying the payment id is inserted.  The Bool is true exactly
on the success response. -/
def apiBillingCapture (st : Store) (userId : Int)
    (captured : Except String CaptureResult) (now : Int) : Store × Bool :=
  match captured with
  | Except.error _ => (st, false)
  | Except.ok c =>
      let amountInCents := toCents c.amount
      let st1 := updateUserBalance st userId amountInCents
      let st2 := createTransaction st1
        { userId := userId, amount := amountInCents, currency := "USD",
          status := "completed", type := "deposit",
          paypalTransactionId := some c.paymentId, createdAt := now }
      (st2, true)

/-- True when the hourly loop would reclaim a server of this owner: the
owner row is missing or its balance is below 100 cents. -/
def ownerCannotPay (st : Store) (userId : Int) : Bool :=
  match getUser st userId with
  | none => true
  | some u => decide (u.balance < 100)

/-- Modelled from the spec: the usage sum of getUsage as the specification
words it, over the half-open interval [periodStart, periodEnd).  This
definition exists only to be compared with the source-derived
getServerBandwidth, whose drizzle query uses lte on both the filter and
hence a closed interval. -/
def specHalfOpenUsedGB (st : Store) (serverId periodStart periodEnd : Int) : ℚ :=
  (((st.metrics.filter (fun m =>
      m.serverId == serverId && decide (periodStart ≤ m.timestamp) &&
        decide (m.timestamp < periodEnd))).foldl
      (fun acc m => acc + m.networkIn + m.networkOut) 0 : Int) : ℚ) /
    (1024 * 1024 * 1024)

/-- A list of atomic balance mutations, each a (userId, delta-in-cents)
pair handed to updateUserBalance, applied in program order. -/
def applyDeltas (st : Store) (ops : List (Int × Int)) : Store :=
  ops.foldl (fun acc op => updateUserBalance acc op.1 op.2) st

/-- An interleaving of two sequences of balance mutations, modelling two
concurrent request handlers whose individual mutations are single atomic
statements. -/
inductive Interleaving :
    List (Int × Int) → List (Int × Int) → List (Int × Int) → Prop
  | nil : Interleaving [] [] []
  | left {x l1 l2 l} : Interleaving l1 l2 l → Interleaving (x :: l1) l2 (x :: l)
  | right {x l1 l2 l} : Interleaving l1 l2 l → Interleaving l1 (x :: l2) (x :: l)

/-- The net delta a list of mutations applies to one account. -/
def deltaSum (userId : Int) (ops : List (Int × Int)) : Int :=
  ((ops.filter (fun op => op.1 == userId)).map (fun op => op.2)).sum

/-! Concrete rows and stores used by the claim instances below. -/

/-- An account with two servers, balance 100 cents: first server of the
owner of account 1. -/
def c2SrvA : Server := ⟨1, 1, "a", "d10", "s-1vcpu-1gb", "active"⟩

/-- Second server of the owner of account 1. -/
def c2SrvB : Server := ⟨2, 1, "b", "d20", "s-1vcpu-1gb", "active"⟩

/-- One account with balance 100 owning two servers. -/
def c2Store : Store := ⟨[⟨1, 100⟩], [c2SrvA, c2SrvB], [], []⟩

/-- A single server owned by account 1. -/
def c2SrvSolo : Server := ⟨1, 1, "a", "d10", "s-1vcpu-1gb", "active"⟩

/-- One account with balance 500 owning a single server. -/
def c2SoloStore : Store := ⟨[⟨1, 500⟩], [c2SrvSolo], [], []⟩

/-- A server whose owner has only 50 cents. -/
def c3Srv : Server := ⟨1, 1, "a", "d10", "s-1vcpu-1gb", "active"⟩

/-- One insolvent account (50 cents) owning one server. -/
def c3Store : Store := ⟨[⟨1, 50⟩], [c3Srv], [], []⟩

/-- Insolvent-owner server processed first in the failing tick. -/
def c4SrvA : Server := ⟨1, 1, "a", "d10", "s-1vcpu-1gb", "active"⟩

/-- Solvent-owner server processed after the failing one. -/
def c4SrvB : Server := ⟨2, 2, "b", "d20", "s-1vcpu-1gb", "active"⟩

/-- Two accounts, the first insolvent, each owning one server. -/
def c4Store : Store := ⟨[⟨1, 50⟩, ⟨2, 500⟩], [c4SrvA, c4SrvB], [], []⟩

/-- Provider oracle: destroying droplet d10 throws. -/
def c4Fail : String → Bool := fun d => d == "d10"

/-- Settlement oracle: processing server 1 throws. -/
def c4SettleFail : Int → Bool := fun i => i == 1

/-- The only size class with a 10-dollar monthly price. -/
def c5Server10 : Server := ⟨1, 1, "web", "d1", "s-1vcpu-2gb", "active"⟩

/-- The only size class with a 1000 GB bandwidth limit. -/
def c5Server5 : Server := ⟨1, 1, "web", "d1", "s-1vcpu-1gb", "active"⟩

/-- A metric sample carrying exactly 1100 GiB of inbound traffic. -/
def c5Metric1100 : ServerMetric := ⟨1, 5, 1100 * 1073741824, 0⟩

/-- A metric sample carrying 900 GiB, under every limit in the table. -/
def c5MetricUnder : ServerMetric := ⟨1, 5, 900 * 1073741824, 0⟩

/-- 1100 GiB of traffic on the 10-dollar size. -/
def c5Store10 : Store := ⟨[⟨1, 0⟩], [c5Server10], [], [c5Metric1100]⟩

/-- 1100 GiB of traffic on the 5-dollar size. -/
def c5Store5 : Store := ⟨[⟨1, 0⟩], [c5Server5], [], [c5Metric1100]⟩

/-- 900 GiB of traffic on the 5-dollar size: under the limit. -/
def c5Under : Store := ⟨[⟨1, 0⟩], [c5Server5], [], [c5MetricUnder]⟩

/-- Server for the interval-endpoint comparison. -/
def c6Server : Server := ⟨1, 1, "web", "d1", "s-1vcpu-1gb", "active"⟩

/-- One GiB sample timestamped exactly at periodEnd = 100. -/
def c6Metric : ServerMetric := ⟨1, 100, 1073741824, 0⟩

/-- Store holding only the boundary sample. -/
def c6Store : Store := ⟨[], [], [], [c6Metric]⟩

/-- A server whose size class is not in the static tables. -/
def c6OddServer : Server := ⟨1, 1, "web", "d1", "c-32vcpu-64gb", "active"⟩

/-- Server for the ledger-invariant run. -/
def c1Server : Server := ⟨1, 1, "web", "d1", "s-1vcpu-1gb", "active"⟩

/-- 1200 GiB of traffic: 200 GB over the 1000 GB limit. -/
def c1Metric : ServerMetric := ⟨1, 5, 1200 * 1073741824, 0⟩

/-- Account with balance 0, one server, the overage traffic. -/
def c1Store : Store := ⟨[⟨1, 0⟩], [c1Server], [], [c1Metric]⟩

/-- The store after a successful 10-dollar deposit capture followed by the
bandwidth-overage settlement of the 200 GB overage. -/
def c1After : Store :=
  processBandwidthOverage (apiBillingCapture c1Store 1 (Except.ok ⟨"pp-1", 10⟩) 1).1
    c1Server 0 10 2

/-- The i-th deposit row of the pagination scenario. -/
def c7Txn (i : Int) : BillingTransaction :=
  ⟨1, 100, "USD", "completed", "deposit", none, i⟩

/-- An account with 25 transactions created at times 0..24. -/
def c7Store : Store := ⟨[⟨1, 2500⟩], [], (List.range 25).map (fun i => c7Txn i), []⟩

/-- An account with balance 150 cents, target of two concurrent charges. -/
def c8Store : Store := ⟨[⟨1, 150⟩], [], [], []⟩

/-- Over-limit server with status active. -/
def c10ServerOn : Server := ⟨1, 1, "web", "d1", "s-1vcpu-1gb", "active"⟩

/-- The same server with status off. -/
def c10ServerOff : Server := ⟨1, 1, "web", "d1", "s-1vcpu-1gb", "off"⟩

/-- The same 1100 GiB sample for the settlement contrast. -/
def c10Metric : ServerMetric := ⟨1, 5, 1100 * 1073741824, 0⟩

/-- Over-limit active server. -/
def c10StoreOn : Store := ⟨[⟨1, 0⟩], [c10ServerOn], [], [c10Metric]⟩

/-- Over-limit server that is powered off. -/
def c10StoreOff : Store := ⟨[⟨1, 0⟩], [c10ServerOff], [], [c10Metric]⟩

/-- Two solvent accounts owning servers with status off and new. -/
def c10OffNewStore : Store :=
  ⟨[⟨1, 500⟩, ⟨2, 500⟩],
   [⟨1, 1, "x", "dx", "s-1vcpu-1gb", "off"⟩, ⟨2, 2, "y", "dy", "s-1vcpu-1gb", "new"⟩],
   [], []⟩

/-- A server whose owning user row does not exist. -/
def c10Orphan : Server := ⟨1, 7, "z", "dz", "s-1vcpu-1gb", "active"⟩

/-- Store holding only the orphan server. -/
def c10NoUserStore : Store := ⟨[], [c10Orphan], [], []⟩

/-!
Theorems.  First the closed instances deciding the claims that fail on
concrete inputs, then the helper lemmas, then the remaining claim
theorems.
-/

/-- The usage field of getServerBandwidth, written out. -/
theorem getServerBandwidth_current (st : Store) (server : Server)
    (periodStart periodEnd : Int) :
    (getServerBandwidth st server periodStart periodEnd).current
      = round2
          ((((monthMetrics st server.id periodStart periodEnd).foldl
                (fun acc m => acc + m.networkIn) 0
              + (monthMetrics st server.id periodStart periodEnd).foldl
                (fun acc m => acc + m.networkOut) 0 : Int) : ℚ)
            / (1024 * 1024 * 1024)) := rfl

/-- The limit field of getServerBandwidth, written out. -/
theorem getServerBandwidth_limit (st : Store) (server : Server)
    (periodStart periodEnd : Int) :
    (getServerBandwidth st server periodStart periodEnd).limit
      = bandwidthLimitFor server.size := rfl

/-- The rate field of getServerBandwidth is the fixed overageRate. -/
theorem getServerBandwidth_rate (st : Store) (server : Server)
    (periodStart periodEnd : Int) :
    (getServerBandwidth st server periodStart periodEnd).overageRate
      = overageRate := rfl

/-- processBandwidthOverage with its let-chain written as nested
conditionals over the named quantities. -/
theorem processBandwidthOverage_eq (st : Store) (server : Server)
    (periodStart periodEnd now : Int) :
    processBandwidthOverage st server periodStart periodEnd now
      = (if (getServerBandwidth st server periodStart periodEnd).current
            ≤ ((getServerBandwidth st server periodStart periodEnd).limit : ℚ)
         then st
         else if overageCents st server periodStart periodEnd ≤ 0 then st
         else
           updateUserBalance
             (createTransaction st
               (bandwidthOverageTxn server (overageCents st server periodStart periodEnd) now))
             server.userId (-(overageCents st server periodStart periodEnd))) := rfl

/-- Claim C1 (code bug): after a completed 1000-cent deposit and a
completed 500-cent bandwidth-overage charge, the balance of the account
is 500 cents while the sum of its completed transaction amounts is 1500
cents: processBandwidthOverage inserts the transaction row with the
positive amount overageCostCents while handing the negated amount to
updateUserBalance, so the ledger invariant balance = sum of completed
amounts is broken by the overage path. -/
theorem c1_overage_breaks_ledger_invariant :
    balanceOf c1After 1 = some 500 ∧
    completedSum c1After 1 = 1500 ∧
    balanceOf c1After 1 ≠ some (completedSum c1After 1) := by
  have hc : toCents 10 = 1000 := by norm_num [toCents, jsRound]
  have h1 : (apiBillingCapture c1Store 1 (Except.ok ⟨"pp-1", 10⟩) 1).1
      = ⟨[⟨1, 1000⟩], [c1Server],
         [⟨1, 1000, "USD", "completed", "deposit", some "pp-1", 1⟩], [c1Metric]⟩ := by
    simp only [apiBillingCapture, hc]
    decide
  have hm : monthMetrics
      (⟨[⟨1, 1000⟩], [c1Server],
        [⟨1, 1000, "USD", "completed", "deposit", some "pp-1", 1⟩], [c1Metric]⟩ : Store)
      c1Server.id 0 10 = [c1Metric] := by decide
  have hcur : (getServerBandwidth
      (⟨[⟨1, 1000⟩], [c1Server],
        [⟨1, 1000, "USD", "completed", "deposit", some "pp-1", 1⟩], [c1Metric]⟩ : Store)
      c1Server 0 10).current = 1200 := by
    rw [getServerBandwidth_current, hm]
    norm_num [c1Metric, round2, jsRound]
  have hlim : (getServerBandwidth
      (⟨[⟨1, 1000⟩], [c1Server],
        [⟨1, 1000, "USD", "completed", "deposit", some "pp-1", 1⟩], [c1Metric]⟩ : Store)
      c1Server 0 10).limit = 1000 := by decide
  have hcents : overageCents
      (⟨[⟨1, 1000⟩], [c1Server],
        [⟨1, 1000, "USD", "completed", "deposit", some "pp-1", 1⟩], [c1Metric]⟩ : Store)
      c1Server 0 10 = 500 := by
    rw [overageCents, hcur, hlim, getServerBandwidth_rate]
    norm_num [jsRound, overageRate, getServerMonthlyPrice, sizePrices, c1Server]
  have h2 : c1After
      = ⟨[⟨1, 500⟩], [c1Server],
         [⟨1, 1000, "USD", "completed", "deposit", some "pp-1", 1⟩,
          ⟨1, 500, "USD", "completed", "bandwidth_overage", none, 2⟩], [c1Metric]⟩ := by
    rw [show c1After
        = processBandwidthOverage (apiBillingCapture c1Store 1 (Except.ok ⟨"pp-1", 10⟩) 1).1
            c1Server 0 10 2 from rfl, h1, processBandwidthOverage_eq, hcur, hlim, hcents]
    norm_num
    decide
  rw [h2]
  decide

/-- Claim C7 (code bug): for an account with 25 transactions created at
times 0..24, the GET /api/billing/transactions handler called with page 2
and pageSize 10 returns all 25 rows, the first being the oldest
(createdAt 0) and the last the newest (createdAt 24): there is no
server-side pagination and the order is ascending, not newest first. -/
theorem c7_no_pagination_oldest_first :
    (apiBillingTransactions c7Store 1 2 10).length = 25 ∧
    (apiBillingTransactions c7Store 1 2 10).head? = some (c7Txn 0) ∧
    (apiBillingTransactions c7Store 1 2 10).getLast? = some (c7Txn 24) := by
  decide

/-- Claim C2 counterexample: account 1 has balance 100 = the hourly rate
at the start of the tick and owns servers c2SrvA and c2SrvB; the tick
still deletes c2SrvB, because the charge for c2SrvA drains the balance
below 100 before c2SrvB is processed.  So a resource whose owning account
is solvent at the start of the tick can nevertheless be reclaimed. -/
theorem c2_start_of_tick_solvency_not_sufficient :
    balanceOf c2Store 1 = some 100 ∧
    c2SrvB ∈ c2Store.servers ∧
    c2SrvB ∉ (deductHourlyServerCosts c2Store 0).store.servers := by
  decide

/-- Claim C4 counterexample: in c4Store the owner of c4SrvA is insolvent
and destroying its droplet d10 throws; the uncaught exception ends the
whole loop, so the solvent-owner server c4SrvB is neither charged nor
reclaimed in that tick: the store is exactly the initial one and no
teardown succeeded. -/
theorem c4_provider_error_aborts_tick :
    deductHourlyServerCostsE c4Fail c4Store 0 = ⟨c4Store, []⟩ ∧
    c4SrvB ∈ (deductHourlyServerCostsE c4Fail c4Store 0).store.servers ∧
    balanceOf (deductHourlyServerCostsE c4Fail c4Store 0).store 2 = some 500 ∧
    (deductHourlyServerCostsE c4Fail c4Store 0).store.transactions = [] := by
  decide

/-- Claim C5 counterexample: the claimed scenario of a 1000 GB limit with
a 10-dollar monthly price does not exist: the only table row with limit
1000 is s-1vcpu-1gb, whose price is 5 dollars, and on the only 10-dollar
size s-1vcpu-2gb the limit is 2000 GB, so 1100 GB of samples is under the
limit and processBandwidthOverage records no transaction at all instead
of the claimed single 500-cent transaction. -/
theorem c5_no_size_pairs_limit1000_price10 :
    (sizeToLimit.filter (fun p => p.2 == 1000)).map (fun p => p.1) = ["s-1vcpu-1gb"] ∧
    getServerMonthlyPrice "s-1vcpu-1gb" = 5 ∧
    (sizePrices.filter (fun p => p.2 == 10)).map (fun p => p.1) = ["s-1vcpu-2gb"] ∧
    bandwidthLimitFor "s-1vcpu-2gb" = 2000 ∧
    (getServerBandwidth c5Store10 c5Server10 0 10).current = 1100 ∧
    processBandwidthOverage c5Store10 c5Server10 0 10 20 = c5Store10 := by
  have hm : monthMetrics c5Store10 c5Server10.id 0 10 = [c5Metric1100] := by decide
  have hcur : (getServerBandwidth c5Store10 c5Server10 0 10).current = 1100 := by
    rw [getServerBandwidth_current, hm]
    norm_num [c5Metric1100, round2, jsRound]
  have hlim : (getServerBandwidth c5Store10 c5Server10 0 10).limit = 2000 := by decide
  refine ⟨by decide, by decide, by decide, by decide, hcur, ?_⟩
  rw [processBandwidthOverage_eq, hcur, hlim]
  norm_num

/-- Claim C6 counterexample: a 1 GiB sample timestamped exactly at
periodEnd is counted by getServerBandwidth (the drizzle filter uses lte),
whereas the half-open-interval sum of the specification excludes it: the
code reports 1 GB where the spec wording yields 0 GB. -/
theorem c6_period_end_sample_is_counted :
    c6Metric.timestamp = 100 ∧
    (getServerBandwidth c6Store c6Server 0 100).current = 1 ∧
    specHalfOpenUsedGB c6Store 1 0 100 = 0 ∧
    (getServerBandwidth c6Store c6Server 0 100).current
      ≠ specHalfOpenUsedGB c6Store 1 0 100 := by
  have hm : monthMetrics c6Store c6Server.id 0 100 = [c6Metric] := by decide
  have hcur : (getServerBandwidth c6Store c6Server 0 100).current = 1 := by
    rw [getServerBandwidth_current, hm]
    norm_num [c6Metric, round2, jsRound]
  have hfil : c6Store.metrics.filter (fun m =>
      m.serverId == (1 : Int) && decide ((0 : Int) ≤ m.timestamp) &&
        decide (m.timestamp < 100)) = [] := by decide
  have hspec : specHalfOpenUsedGB c6Store 1 0 100 = 0 := by
    rw [specHalfOpenUsedGB, hfil]
    norm_num
  refine ⟨rfl, hcur, hspec, ?_⟩
  rw [hcur, hspec]
  norm_num

/-! Helper lemmas about the storage operations. -/

/-- find? over the balance-updating map of updateUserBalance, same key. -/
theorem find?_update_users (l : List User) (uid d : Int) :
    (l.map (fun u =>
        if u.id == uid then { u with balance := u.balance + d } else u)).find?
        (fun u => u.id == uid)
      = (l.find? (fun u => u.id == uid)).map
          (fun u => { u with balance := u.balance + d }) := by
  induction l with
  | nil => rfl
  | cons a l ih =>
    rw [List.map_cons]
    by_cases h : a.id = uid
    · rw [List.find?_cons_of_pos _ (by simp [h]),
        List.find?_cons_of_pos _ (by simp [h])]
      simp [h]
    · rw [List.find?_cons_of_neg _ (by simp [h]),
        List.find?_cons_of_neg _ (by simp [h])]
      exact ih

/-- find? over the balance-updating map of updateUserBalance, other key. -/
theorem find?_update_users_ne (l : List User) (uid other d : Int)
    (hne : uid ≠ other) :
    (l.map (fun u =>
        if u.id == other then { u with balance := u.balance + d } else u)).find?
        (fun u => u.id == uid)
      = l.find? (fun u => u.id == uid) := by
  induction l with
  | nil => rfl
  | cons a l ih =>
    rw [List.map_cons]
    by_cases h2 : a.id = uid
    · have h : ¬ a.id = other := by
        rw [h2]
        exact hne
      have hif : (if a.id == other then { a with balance := a.balance + d } else a)
          = a := by
        simp [h]
      rw [hif, List.find?_cons_of_pos _ (by simp [h2]),
        List.find?_cons_of_pos _ (by simp [h2])]
    · by_cases h : a.id = other
      · rw [List.find?_cons_of_neg _
            (by simp [h]; exact fun he => hne he.symm),
          List.find?_cons_of_neg _ (by simp [h2])]
        exact ih
      · have hif : (if a.id == other then { a with balance := a.balance + d } else a)
            = a := by
          simp [h]
        rw [hif, List.find?_cons_of_neg _ (by simp [h2]),
          List.find?_cons_of_neg _ (by simp [h2])]
        exact ih

/-- createTransaction leaves the users table untouched. -/
theorem getUser_createTransaction (st : Store) (t : BillingTransaction) (uid : Int) :
    getUser (createTransaction st t) uid = getUser st uid := rfl

/-- deleteServer leaves the users table untouched. -/
theorem getUser_deleteServer (st : Store) (sid uid : Int) :
    getUser (deleteServer st sid) uid = getUser st uid := rfl

/-- Reading the updated account after updateUserBalance. -/
theorem getUser_updateUserBalance (st : Store) (uid d : Int) :
    getUser (updateUserBalance st uid d) uid
      = (getUser st uid).map (fun u => { u with balance := u.balance + d }) := by
  simpa [getUser, updateUserBalance] using find?_update_users st.users uid d

/-- Reading another account after updateUserBalance. -/
theorem getUser_updateUserBalance_ne (st : Store) (uid other d : Int)
    (hne : uid ≠ other) :
    getUser (updateUserBalance st other d) uid = getUser st uid := by
  simpa [getUser, updateUserBalance] using
    find?_update_users_ne st.users uid other d hne

/-- An insolvent or missing owner is sent to the reclaim branch. -/
theorem processServer_insolvent (r : TickResult) (s : Server) (now : Int)
    (h : ownerCannotPay r.store s.userId = true) :
    processServer r s now = reclaimServer r s := by
  cases hg : getUser r.store s.userId with
  | none => simp [processServer, hg]
  | some u =>
    have hb : u.balance < 100 := by simpa [ownerCannotPay, hg] using h
    simp [processServer, hg, hb]

/-- A solvent owner is sent to the charge branch. -/
theorem processServer_solvent (r : TickResult) (s : Server) (now : Int)
    (h : ownerCannotPay r.store s.userId = false) :
    processServer r s now = chargeServer r s now := by
  cases hg : getUser r.store s.userId with
  | none => simp [ownerCannotPay, hg] at h
  | some u =>
    have hb : ¬ u.balance < 100 := by simpa [ownerCannotPay, hg] using h
    simp [processServer, hg, hb]

/-- Applying a non-positive delta keeps an account unable to pay. -/
theorem ownerCannotPay_updateUserBalance (st : Store) (uid other d : Int)
    (hd : d ≤ 0) (h : ownerCannotPay st uid = true) :
    ownerCannotPay (updateUserBalance st other d) uid = true := by
  by_cases he : uid = other
  · subst he
    cases hg : getUser st uid with
    | none => simp [ownerCannotPay, getUser_updateUserBalance, hg]
    | some u =>
      have hb : u.balance < 100 := by simpa [ownerCannotPay, hg] using h
      have hb2 : u.balance + d < 100 := by omega
      simp [ownerCannotPay, getUser_updateUserBalance, hg, hb2]
  · have hgu : getUser (updateUserBalance st other d) uid = getUser st uid :=
      getUser_updateUserBalance_ne st uid other d he
    simp only [ownerCannotPay, hgu]
    simpa [ownerCannotPay] using h

/-- One loop iteration of the hourly job keeps an account unable to pay:
the only balance write is the -100 of the charge branch. -/
theorem ownerCannotPay_processServer (r : TickResult) (s : Server) (now : Int)
    (uid : Int) (h : ownerCannotPay r.store uid = true) :
    ownerCannotPay (processServer r s now).store uid = true := by
  cases hcp : ownerCannotPay r.store s.userId with
  | true =>
    rw [processServer_insolvent r s now hcp]
    exact h
  | false =>
    rw [processServer_solvent r s now hcp]
    exact ownerCannotPay_updateUserBalance r.store uid s.userId (-100)
      (by omega) h

/-- A loop iteration never adds server rows. -/
theorem servers_processServer_subset (r : TickResult) (s : Server) (now : Int)
    (t : Server) (ht : t ∈ (processServer r s now).store.servers) :
    t ∈ r.store.servers := by
  cases hcp : ownerCannotPay r.store s.userId with
  | true =>
    rw [processServer_insolvent r s now hcp] at ht
    exact List.mem_of_mem_filter ht
  | false =>
    rw [processServer_solvent r s now hcp] at ht
    exact ht

/-- A server row absent from the store stays absent through the loop. -/
theorem runTick_not_mem (now : Int) (s : Server) :
    ∀ (l : List Server) (r : TickResult),
      s ∉ r.store.servers → s ∉ (runTick now r l).store.servers := by
  intro l
  induction l with
  | nil => intro r h; exact h
  | cons a l ih =>
    intro r h
    exact ih (processServer r a now)
      (fun hmem => h (servers_processServer_subset r a now s hmem))

/-- Teardown trace of the loop: with the owner of uid unable to pay and
every server carrying droplet d owned by uid, the loop adds one teardown
of d per server with droplet d. -/
theorem runTick_count_teardowns (now : Int) (uid : Int) (d : String) :
    ∀ (l : List Server) (r : TickResult),
      ownerCannotPay r.store uid = true →
      (∀ t ∈ l, t.dropletId = d → t.userId = uid) →
      (runTick now r l).teardowns.count d
        = r.teardowns.count d + l.countP (fun t => t.dropletId == d) := by
  intro l
  induction l with
  | nil => intro r _ _; simp [runTick]
  | cons a l ih =>
    intro r h hl
    have hstep : runTick now r (a :: l) = runTick now (processServer r a now) l := rfl
    rw [hstep]
    have hrest : ∀ t ∈ l, t.dropletId = d → t.userId = uid :=
      fun t ht => hl t (List.mem_cons_of_mem a ht)
    have hnext : ownerCannotPay (processServer r a now).store uid = true :=
      ownerCannotPay_processServer r a now uid h
    rw [ih (processServer r a now) hnext hrest]
    by_cases hd : a.dropletId = d
    · have hu : a.userId = uid := hl a (List.mem_cons_self a l) hd
      have hre : processServer r a now = reclaimServer r a :=
        processServer_insolvent r a now (by rw [hu]; exact h)
      rw [hre]
      have hbt : (a.dropletId == d) = true := by simp [hd]
      simp [reclaimServer, List.count_append, List.count_cons, List.count_nil,
        hbt, List.countP_cons]
      omega
    · have hbf : (a.dropletId == d) = false := by simp [hd]
      cases hcp : ownerCannotPay r.store a.userId with
      | true =>
        rw [processServer_insolvent r a now hcp]
        simp [reclaimServer, List.count_append, List.count_cons, List.count_nil,
          hbf, List.countP_cons]
      | false =>
        rw [processServer_solvent r a now hcp]
        simp [chargeServer, List.countP_cons, hbf]

/-- A server of an owner that cannot pay is deleted by the loop. -/
theorem runTick_removed (now : Int) (s : Server) :
    ∀ (l : List Server) (r : TickResult),
      ownerCannotPay r.store s.userId = true → s ∈ l →
      s ∉ (runTick now r l).store.servers := by
  intro l
  induction l with
  | nil => intro r _ h; exact absurd h (List.not_mem_nil s)
  | cons a l ih =>
    intro r h hmem
    by_cases he : s ∈ l
    · exact ih (processServer r a now)
        (ownerCannotPay_processServer r a now s.userId h) he
    · have ha : a = s := by
        rcases List.mem_cons.mp hmem with h1 | h1
        · exact h1.symm
        · exact absurd h1 he
      subst ha
      rw [show runTick now r (a :: l) = runTick now (processServer r a now) l from rfl]
      apply runTick_not_mem
      rw [processServer_insolvent r a now h]
      simp [reclaimServer, deleteServer, List.mem_filter]

/-- No transaction row is added for an account that cannot pay. -/
theorem runTick_txns_filter (now uid : Int) :
    ∀ (l : List Server) (r : TickResult),
      ownerCannotPay r.store uid = true →
      (runTick now r l).store.transactions.filter (fun t => t.userId == uid)
        = r.store.transactions.filter (fun t => t.userId == uid) := by
  intro l
  induction l with
  | nil => intro r _; rfl
  | cons a l ih =>
    intro r h
    rw [show runTick now r (a :: l) = runTick now (processServer r a now) l from rfl]
    rw [ih (processServer r a now) (ownerCannotPay_processServer r a now uid h)]
    cases hcp : ownerCannotPay r.store a.userId with
    | true =>
      rw [processServer_insolvent r a now hcp]
      rfl
    | false =>
      rw [processServer_solvent r a now hcp]
      have hne : a.userId ≠ uid := by
        intro he
        rw [he] at hcp
        rw [h] at hcp
        exact Bool.noConfusion hcp
      simp only [chargeServer, createTransaction]
      rw [show (updateUserBalance r.store a.userId (-100)).transactions
          = r.store.transactions from rfl]
      simp [List.filter_append, hourlyChargeTxn, hne]

/-- A Bool predicate holding exactly once on a list singles out one
element. -/
theorem countP_one_unique {α : Type} [DecidableEq α] (p : α → Bool) :
    ∀ (l : List α), l.countP p = 1 →
      ∀ s, s ∈ l → p s = true → ∀ t, t ∈ l → p t = true → t = s := by
  intro l
  induction l with
  | nil => intro h s hs; exact absurd hs (List.not_mem_nil s)
  | cons a l ih =>
    intro h s hs hps t ht hpt
    rw [List.countP_cons] at h
    cases hpa : p a with
    | true =>
      have h0 : l.countP p = 0 := by
        rw [hpa] at h
        simpa using h
      have hnone : ∀ x, x ∈ l → ¬ p x = true := by
        intro x hx hpx
        have hpos : 0 < l.countP p := List.countP_pos_iff.mpr ⟨x, hx, hpx⟩
        omega
      have hsa : s = a := by
        rcases List.mem_cons.mp hs with h1 | h1
        · exact h1
        · exact absurd hps (hnone s h1)
      have hta : t = a := by
        rcases List.mem_cons.mp ht with h1 | h1
        · exact h1
        · exact absurd hpt (hnone t h1)
      rw [hsa, hta]
    | false =>
      rw [hpa] at h
      simp at h
      have hsl : s ∈ l := by
        rcases List.mem_cons.mp hs with h1 | h1
        · rw [h1] at hps; rw [hps] at hpa; exact Bool.noConfusion hpa
        · exact h1
      have htl : t ∈ l := by
        rcases List.mem_cons.mp ht with h1 | h1
        · rw [h1] at hpt; rw [hpt] at hpa; exact Bool.noConfusion hpa
        · exact h1
      exact ih h s hsl hps t htl hpt

/-- Claim C3: a Resource whose owning account is missing or has balance
below the hourly rate at the start of the tick is reclaimed: the provider
teardown for its droplet is invoked exactly once, its row is deleted, and
no transaction row is created for its owner during the tick. -/
theorem c3_insolvent_server_reclaimed (st : Store) (now : Int) (s : Server)
    (hmem : s ∈ st.servers)
    (hpoor : ownerCannotPay st s.userId = true)
    (huniq : st.servers.countP (fun t => t.dropletId == s.dropletId) = 1) :
    (deductHourlyServerCosts st now).teardowns.count s.dropletId = 1 ∧
    s ∉ (deductHourlyServerCosts st now).store.servers ∧
    (deductHourlyServerCosts st now).store.transactions.filter
        (fun t => t.userId == s.userId)
      = st.transactions.filter (fun t => t.userId == s.userId) := by
  have hinit : ownerCannotPay ((⟨st, []⟩ : TickResult)).store s.userId = true := hpoor
  have hall : ∀ t ∈ st.servers, t.dropletId = s.dropletId → t.userId = s.userId := by
    intro t ht hd
    have hts : t = s := by
      refine countP_one_unique _ st.servers huniq s hmem ?_ t ht ?_
      · simp
      · simp [hd]
    rw [hts]
  refine ⟨?_, ?_, ?_⟩
  · have hcount := runTick_count_teardowns now s.userId s.dropletId st.servers
      ⟨st, []⟩ hinit hall
    simpa [deductHourlyServerCosts, getAllServers, huniq] using hcount
  · exact runTick_removed now s st.servers ⟨st, []⟩ hinit hmem
  · exact runTick_txns_filter now s.userId st.servers ⟨st, []⟩ hinit

/-- Claim C3 witness: account 1 has 50 cents and owns c3Srv; the tick
tears droplet d10 down once, deletes the row and writes no transaction. -/
theorem c3_witness :
    (deductHourlyServerCosts c3Store 0).teardowns.count "d10" = 1 ∧
    c3Srv ∉ (deductHourlyServerCosts c3Store 0).store.servers ∧
    (deductHourlyServerCosts c3Store 0).store.transactions.filter
        (fun t => t.userId == (1 : Int))
      = c3Store.transactions.filter (fun t => t.userId == (1 : Int)) :=
  c3_insolvent_server_reclaimed c3Store 0 c3Srv (by decide) (by decide) (by decide)

/-- Claim C2 (amended): a Resource whose owning account still has at
least 100 cents at the moment the tick processes it is charged, not
deleted: the balance drops by exactly 100 cents and exactly one completed
hourly_server_charge row of amount -100 is appended; and an account with
balance 500 owning a single Resource ends the tick with balance 400, one
new hourly-charge transaction, and its server intact. -/
theorem c2_solvent_at_processing_charged :
    (∀ (r : TickResult) (s : Server) (now : Int) (u : User),
        getUser r.store s.userId = some u → 100 ≤ u.balance →
        balanceOf (processServer r s now).store s.userId = some (u.balance - 100) ∧
        (processServer r s now).store.transactions
          = r.store.transactions ++ [hourlyChargeTxn s.userId now] ∧
        (processServer r s now).store.servers = r.store.servers ∧
        (processServer r s now).teardowns = r.teardowns) ∧
    (∀ now : Int,
        balanceOf (deductHourlyServerCosts c2SoloStore now).store 1 = some 400 ∧
        (deductHourlyServerCosts c2SoloStore now).store.transactions
          = [hourlyChargeTxn 1 now] ∧
        (deductHourlyServerCosts c2SoloStore now).store.servers
          = c2SoloStore.servers) := by
  constructor
  · intro r s now u hg hb
    have hlt : ¬ u.balance < 100 := by omega
    have hstep : processServer r s now = chargeServer r s now := by
      simp [processServer, hg, hlt]
    rw [hstep]
    refine ⟨?_, rfl, rfl, rfl⟩
    have hbal : balanceOf (chargeServer r s now).store s.userId
        = (getUser r.store s.userId).map
            (fun u => u.balance + (-100)) := by
      simp [balanceOf, chargeServer, getUser_createTransaction,
        getUser_updateUserBalance]
      rfl
    rw [hbal, hg]
    simp
    omega
  · intro now
    refine ⟨rfl, rfl, rfl⟩

/-- Claim C2 witness: the per-step statement applied to the 500-cent
single-server account. -/
theorem c2_witness :
    balanceOf (processServer ⟨c2SoloStore, []⟩ c2SrvSolo 7).store 1 = some 400 :=
  (c2_solvent_at_processing_charged.1 ⟨c2SoloStore, []⟩ c2SrvSolo 7 ⟨1, 500⟩
    rfl (by decide)).1

/-- When the provider call for this server cannot throw, the fallible
loop body agrees with the plain one. -/
theorem processServerE_ok (provFails : String → Bool) (r : TickResult)
    (s : Server) (now : Int) (h : provFails s.dropletId = false) :
    processServerE provFails r s now = Except.ok (processServer r s now) := by
  cases hg : getUser r.store s.userId with
  | none => simp [processServerE, processServer, hg, h]
  | some u =>
    by_cases hb : u.balance < 100
    · simp [processServerE, processServer, hg, hb, h]
    · simp [processServerE, processServer, hg, hb]

/-- An insolvent owner whose droplet teardown throws aborts the loop body
before any storage write. -/
theorem processServerE_throws (provFails : String → Bool) (r : TickResult)
    (s : Server) (now : Int)
    (hpoor : ownerCannotPay r.store s.userId = true)
    (hf : provFails s.dropletId = true) :
    processServerE provFails r s now = Except.error r := by
  cases hg : getUser r.store s.userId with
  | none => simp [processServerE, hg, hf]
  | some u =>
    have hb : u.balance < 100 := by simpa [ownerCannotPay, hg] using hpoor
    simp [processServerE, hg, hb, hf]

/-- The fallible hourly loop stops exactly at the first throwing server:
the result is the plain loop run on the servers before it. -/
theorem runTickE_stops_at_first_throw (provFails : String → Bool) (now : Int) (s : Server)
    (post : List Server) :
    ∀ (pre : List Server) (r : TickResult),
      (∀ t ∈ pre, provFails t.dropletId = false) →
      ownerCannotPay (runTick now r pre).store s.userId = true →
      provFails s.dropletId = true →
      runTickE provFails now r (pre ++ s :: post) = runTick now r pre := by
  intro pre
  induction pre with
  | nil =>
    intro r _ hpoor hf
    have herr := processServerE_throws provFails r s now hpoor hf
    simp [runTickE, herr, runTick]
  | cons a pre ih =>
    intro r hall hpoor hf
    have ha : provFails a.dropletId = false := hall a (List.mem_cons_self a pre)
    have hrest : ∀ t ∈ pre, provFails t.dropletId = false :=
      fun t ht => hall t (List.mem_cons_of_mem a ht)
    rw [List.cons_append]
    rw [show runTickE provFails now r (a :: (pre ++ s :: post))
        = runTickE provFails now (processServer r a now) (pre ++ s :: post) by
      simp [runTickE, processServerE_ok provFails r a now ha]]
    exact ih (processServer r a now) hrest hpoor hf

/-- The error-catching settlement fold is the plain fold over the servers
whose processing does not throw. -/
theorem settleListE_eq_filter (provFails : Int → Bool) (ps pe now : Int) :
    ∀ (l : List Server) (st : Store),
      settleListE provFails st l ps pe now
        = settleList st (l.filter (fun s => !provFails s.id)) ps pe now := by
  intro l
  induction l with
  | nil => intro st; rfl
  | cons a l ih =>
    intro st
    cases hf : provFails a.id with
    | true =>
      rw [show settleListE provFails st (a :: l) ps pe now
          = settleListE provFails st l ps pe now by
        simp [settleListE, List.foldl_cons, hf]]
      rw [show (a :: l).filter (fun s => !provFails s.id)
          = l.filter (fun s => !provFails s.id) by
        simp [List.filter_cons, hf]]
      exact ih st
    | false =>
      rw [show settleListE provFails st (a :: l) ps pe now
          = settleListE provFails (processBandwidthOverage st a ps pe now) l ps pe now by
        simp [settleListE, List.foldl_cons, hf]]
      rw [show (a :: l).filter (fun s => !provFails s.id)
          = a :: l.filter (fun s => !provFails s.id) by
        simp [List.filter_cons, hf]]
      rw [show settleList st (a :: l.filter (fun s => !provFails s.id)) ps pe now
          = settleList (processBandwidthOverage st a ps pe now)
              (l.filter (fun s => !provFails s.id)) ps pe now from rfl]
      exact ih (processBandwidthOverage st a ps pe now)

/-- Claim C4 (amended): per-resource error isolation holds for the
end-of-month bandwidth settlement loop, whose failing servers are simply
skipped while every other active server is settled as usual; it does not
hold for the hourly charge/reclaim loop, where the first throwing
teardown ends the tick with exactly the servers before it processed and
every later server untouched. -/
theorem c4_error_isolation_split :
    (∀ (provFails : Int → Bool) (st : Store) (ps pe now : Int),
        calculateBandwidthOveragesE provFails st ps pe now true
          = settleList st ((activeServers st).filter (fun s => !provFails s.id))
              ps pe now) ∧
    (∀ (dropFails : String → Bool) (st : Store) (now : Int)
        (pre post : List Server) (s : Server),
        getAllServers st = pre ++ s :: post →
        (∀ t ∈ pre, dropFails t.dropletId = false) →
        ownerCannotPay (runTick now ⟨st, []⟩ pre).store s.userId = true →
        dropFails s.dropletId = true →
        deductHourlyServerCostsE dropFails st now = runTick now ⟨st, []⟩ pre) := by
  constructor
  · intro provFails st ps pe now
    cases he : (activeServers st).isEmpty with
    | true =>
      have hnil : activeServers st = [] := by
        cases hl : activeServers st with
        | nil => rfl
        | cons a l => rw [hl] at he; exact Bool.noConfusion he
      rw [show calculateBandwidthOveragesE provFails st ps pe now true = st by
        simp [calculateBandwidthOveragesE, he]]
      rw [hnil]
      rfl
    | false =>
      rw [show calculateBandwidthOveragesE provFails st ps pe now true
          = settleListE provFails st (activeServers st) ps pe now by
        simp [calculateBandwidthOveragesE, he]]
      exact settleListE_eq_filter provFails ps pe now (activeServers st) st
  · intro dropFails st now pre post s hsplit hpre hpoor hf
    rw [show deductHourlyServerCostsE dropFails st now
        = runTickE dropFails now ⟨st, []⟩ (getAllServers st) from rfl, hsplit]
    exact runTickE_stops_at_first_throw dropFails now s post pre ⟨st, []⟩ hpre hpoor hf

/-- Claim C4 witness: both parts applied at concrete inputs: the
settlement equality at a failing oracle on c4Store, and the hourly abort
with c4SrvA throwing first. -/
theorem c4_witness :
    calculateBandwidthOveragesE c4SettleFail c4Store 0 10 20 true
      = settleList c4Store
          ((activeServers c4Store).filter (fun s => !c4SettleFail s.id)) 0 10 20 ∧
    deductHourlyServerCostsE c4Fail c4Store 0 = runTick 0 ⟨c4Store, []⟩ [] :=
  ⟨c4_error_isolation_split.1 c4SettleFail c4Store 0 10 20,
   c4_error_isolation_split.2 c4Fail c4Store 0 [] [c4SrvB] c4SrvA rfl
     (by intro t ht; exact absurd ht (List.not_mem_nil t)) (by decide) (by decide)⟩

/-- The metrics of c5Store5 for the settlement period. -/
theorem c5Store5_metrics : monthMetrics c5Store5 c5Server5.id 0 10 = [c5Metric1100] := by
  decide

/-- The usage the aggregator reports for c5Store5. -/
theorem c5Store5_current :
    (getServerBandwidth c5Store5 c5Server5 0 10).current = 1100 := by
  rw [getServerBandwidth_current, c5Store5_metrics]
  norm_num [c5Metric1100, round2, jsRound]

/-- The cents the settlement computes for c5Store5: 100 GB over the
1000 GB limit at a 5-dollar monthly price. -/
theorem c5Store5_cents : overageCents c5Store5 c5Server5 0 10 = 250 := by
  rw [overageCents, c5Store5_current,
    show (getServerBandwidth c5Store5 c5Server5 0 10).limit = 1000 from by decide,
    getServerBandwidth_rate]
  norm_num [jsRound, overageRate, getServerMonthlyPrice, sizePrices, c5Server5]

/-- The usage the aggregator reports for c5Under. -/
theorem c5Under_current :
    (getServerBandwidth c5Under c5Server5 0 10).current = 900 := by
  rw [getServerBandwidth_current,
    show monthMetrics c5Under c5Server5.id 0 10 = [c5MetricUnder] from by decide]
  norm_num [c5MetricUnder, round2, jsRound]

/-- c5Under is at or under its limit. -/
theorem c5Under_le :
    (getServerBandwidth c5Under c5Server5 0 10).current
      ≤ ((getServerBandwidth c5Under c5Server5 0 10).limit : ℚ) := by
  rw [c5Under_current,
    show (getServerBandwidth c5Under c5Server5 0 10).limit = 1000 from by decide]
  norm_num

/-- Claim C5 (amended): the settlement is a no-op when usage is at or
under the limit; any transaction it appends has kind bandwidth_overage
and a positive amount equal to Math.round of overageGB times the monthly
price times overageRate, in cents; on the only 1000 GB-limit size
(5 dollars monthly) samples summing to 1100 GB yield exactly one 250-cent
transaction, and under-limit usage yields none. -/
theorem c5_overage_charge_formula :
    (∀ (st : Store) (server : Server) (ps pe now : Int),
        (getServerBandwidth st server ps pe).current
            ≤ ((getServerBandwidth st server ps pe).limit : ℚ) →
        processBandwidthOverage st server ps pe now = st) ∧
    (∀ (st : Store) (server : Server) (ps pe now : Int),
        ∀ t ∈ (processBandwidthOverage st server ps pe now).transactions.drop
            st.transactions.length,
          t.type = "bandwidth_overage" ∧ 0 < t.amount ∧
          t.amount = overageCents st server ps pe ∧
          overageCents st server ps pe
            = jsRound
                (((getServerBandwidth st server ps pe).current
                    - ((getServerBandwidth st server ps pe).limit : ℚ))
                  * ((getServerMonthlyPrice server.size : ℚ) * overageRate) * 100)) ∧
    ((processBandwidthOverage c5Store5 c5Server5 0 10 20).transactions
        = [bandwidthOverageTxn c5Server5 250 20]) ∧
    (processBandwidthOverage c5Under c5Server5 0 10 20 = c5Under) := by
  refine ⟨?_, ?_, ?_, ?_⟩
  · intro st server ps pe now h
    rw [processBandwidthOverage_eq, if_pos h]
  · intro st server ps pe now t ht
    by_cases h1 : (getServerBandwidth st server ps pe).current
        ≤ ((getServerBandwidth st server ps pe).limit : ℚ)
    · rw [processBandwidthOverage_eq, if_pos h1, List.drop_length] at ht
      exact absurd ht (List.not_mem_nil t)
    · by_cases h2 : overageCents st server ps pe ≤ 0
      · rw [processBandwidthOverage_eq, if_neg h1, if_pos h2, List.drop_length] at ht
        exact absurd ht (List.not_mem_nil t)
      · rw [processBandwidthOverage_eq, if_neg h1, if_neg h2] at ht
        rw [show (updateUserBalance
              (createTransaction st
                (bandwidthOverageTxn server (overageCents st server ps pe) now))
              server.userId (-(overageCents st server ps pe))).transactions
            = st.transactions
              ++ [bandwidthOverageTxn server (overageCents st server ps pe) now]
          from rfl] at ht
        rw [List.drop_left] at ht
        have hts : t = bandwidthOverageTxn server (overageCents st server ps pe) now := by
          simpa using ht
        rw [hts]
        exact ⟨rfl, by show 0 < overageCents st server ps pe; omega, rfl, rfl⟩
  · have h1 : ¬ (getServerBandwidth c5Store5 c5Server5 0 10).current
        ≤ ((getServerBandwidth c5Store5 c5Server5 0 10).limit : ℚ) := by
      rw [c5Store5_current,
        show (getServerBandwidth c5Store5 c5Server5 0 10).limit = 1000 from by decide]
      norm_num
    rw [processBandwidthOverage_eq, if_neg h1, c5Store5_cents,
      if_neg (by norm_num : ¬ ((250 : Int) ≤ 0))]
    rfl
  · exact Eq.trans (by rw [processBandwidthOverage_eq, if_pos c5Under_le]) rfl

/-- Claim C5 witness: the no-op branch applied to the concrete
under-limit store, and the transaction characterization applied to the
concrete over-limit one. -/
theorem c5_witness :
    processBandwidthOverage c5Under c5Server5 0 10 20 = c5Under :=
  c5_overage_charge_formula.1 c5Under c5Server5 0 10 20 c5Under_le

/-- List.foldl of repeated addition is the starting value plus the sum of
the images. -/
theorem foldl_add_int {α : Type} (g : α → Int) :
    ∀ (l : List α) (c : Int),
      l.foldl (fun a m => a + g m) c = c + (l.map g).sum := by
  intro l
  induction l with
  | nil => intro c; simp
  | cons a l ih =>
    intro c
    rw [List.foldl_cons, ih, List.map_cons, List.sum_cons]
    omega

/-- Sums of pointwise-added images split. -/
theorem sum_map_add {α : Type} (f g : α → Int) :
    ∀ (l : List α),
      (l.map (fun m => f m + g m)).sum = (l.map f).sum + (l.map g).sum := by
  intro l
  induction l with
  | nil => simp
  | cons a l ih =>
    rw [List.map_cons, List.sum_cons, ih, List.map_cons, List.sum_cons,
      List.map_cons, List.sum_cons]
    omega

/-- Summing over a filtered list is summing an if-guarded image over the
whole list. -/
theorem filter_sum_if {α : Type} (p : α → Bool) (g : α → Int) :
    ∀ (l : List α),
      ((l.filter p).map g).sum
        = (l.map (fun m => if p m then g m else 0)).sum := by
  intro l
  induction l with
  | nil => simp
  | cons a l ih =>
    cases hp : p a with
    | true =>
      rw [List.filter_cons, List.map_cons]
      simp only [hp, if_true, List.map_cons, List.sum_cons]
      rw [ih]
    | false =>
      rw [List.filter_cons, List.map_cons]
      simp only [hp, if_false, Bool.false_eq_true, List.sum_cons]
      rw [ih]
      omega

/-- The byte total of getServerBandwidth as one sum over every metric
row, guarded by the query predicate. -/
theorem monthMetrics_sum (st : Store) (sid ps pe : Int) :
    ((monthMetrics st sid ps pe).foldl (fun acc m => acc + m.networkIn) 0
        + (monthMetrics st sid ps pe).foldl (fun acc m => acc + m.networkOut) 0)
      = (st.metrics.map (fun m =>
          if m.serverId == sid && decide (ps ≤ m.timestamp) &&
              decide (m.timestamp ≤ pe)
          then m.networkIn + m.networkOut else 0)).sum := by
  rw [foldl_add_int, foldl_add_int, zero_add, zero_add, ← sum_map_add]
  exact filter_sum_if _ _ st.metrics

/-- Claim C6 (amended): the reported usage is the rounded GB conversion
(divide by 2^30) of the byte counters summed over exactly the samples of
the resource whose timestamp lies in the closed interval
[periodStart, periodEnd], and the reported limit comes from the static
sizeToLimit table with default 1000 when the size class is absent. -/
theorem c6_usage_sum_and_limit :
    ∀ (st : Store) (server : Server) (ps pe : Int),
      ((getServerBandwidth st server ps pe).current
          = round2
              ((((st.metrics.map (fun m =>
                    if m.serverId == server.id && decide (ps ≤ m.timestamp) &&
                        decide (m.timestamp ≤ pe)
                    then m.networkIn + m.networkOut else 0)).sum : Int) : ℚ)
                / (1024 * 1024 * 1024))) ∧
      (sizeToLimit.lookup server.size = none →
        (getServerBandwidth st server ps pe).limit = 1000) ∧
      (∀ v : Int, sizeToLimit.lookup server.size = some v →
        (getServerBandwidth st server ps pe).limit = v) := by
  intro st server ps pe
  refine ⟨?_, ?_, ?_⟩
  · rw [getServerBandwidth_current, monthMetrics_sum]
  · intro h
    rw [getServerBandwidth_limit, bandwidthLimitFor, h]
    rfl
  · intro v h
    rw [getServerBandwidth_limit, bandwidthLimitFor, h]
    rfl

/-- Claim C6 witness: the default-limit branch applied to a size class
absent from the table, and the sum form applied to the boundary store. -/
theorem c6_witness :
    (getServerBandwidth c6Store c6OddServer 0 100).limit = 1000 ∧
    (getServerBandwidth c6Store c6Server 0 100).current
      = round2
          ((((c6Store.metrics.map (fun m =>
                if m.serverId == c6Server.id && decide ((0 : Int) ≤ m.timestamp) &&
                    decide (m.timestamp ≤ (100 : Int))
                then m.networkIn + m.networkOut else 0)).sum : Int) : ℚ)
            / (1024 * 1024 * 1024)) :=
  ⟨(c6_usage_sum_and_limit c6Store c6OddServer 0 100).2.1 (by decide),
   (c6_usage_sum_and_limit c6Store c6Server 0 100).1⟩

/-- deltaSum over a mutation for this account. -/
theorem deltaSum_cons_eq (uid : Int) (x : Int × Int) (l : List (Int × Int))
    (h : x.1 = uid) : deltaSum uid (x :: l) = x.2 + deltaSum uid l := by
  simp [deltaSum, List.filter_cons, h]

/-- deltaSum over a mutation for another account. -/
theorem deltaSum_cons_ne (uid : Int) (x : Int × Int) (l : List (Int × Int))
    (h : ¬ x.1 = uid) : deltaSum uid (x :: l) = deltaSum uid l := by
  simp [deltaSum, List.filter_cons, h]

/-- Claim C8: every balance mutation goes through updateUserBalance,
whose set balance = balance + delta is a single atomic statement; so for
any two sequences of mutations running concurrently, every interleaving
leaves each account with its initial balance plus the deltas of both
sequences: no update is lost. -/
theorem c8_no_lost_update :
    ∀ (l1 l2 l : List (Int × Int)), Interleaving l1 l2 l →
      ∀ (st : Store) (uid : Int) (u : User),
        getUser st uid = some u →
        getUser (applyDeltas st l) uid
          = some ⟨u.id, u.balance + deltaSum uid l1 + deltaSum uid l2⟩ := by
  intro l1 l2 l h
  induction h with
  | nil =>
    intro st uid u hu
    rw [show applyDeltas st [] = st from rfl, hu]
    rw [show deltaSum uid [] = 0 from rfl]
    rw [show u.balance + 0 + 0 = u.balance from by omega]
  | left h ih =>
    rename_i x l1 l2 l
    intro st uid u hu
    rw [show applyDeltas st (x :: l)
        = applyDeltas (updateUserBalance st x.1 x.2) l from rfl]
    by_cases he : x.1 = uid
    · have hup : getUser (updateUserBalance st x.1 x.2) uid
          = some ⟨u.id, u.balance + x.2⟩ := by
        rw [he, getUser_updateUserBalance, hu]
        rfl
      rw [ih (updateUserBalance st x.1 x.2) uid ⟨u.id, u.balance + x.2⟩ hup,
        deltaSum_cons_eq uid x l1 he]
      rw [show (⟨u.id, u.balance + x.2⟩ : User).balance
            + deltaSum uid l1 + deltaSum uid l2
          = u.balance + (x.2 + deltaSum uid l1) + deltaSum uid l2 from by
        show u.balance + x.2 + deltaSum uid l1 + deltaSum uid l2 = _
        omega]
    · have hup : getUser (updateUserBalance st x.1 x.2) uid = some u := by
        rw [getUser_updateUserBalance_ne st uid x.1 x.2
          (fun hh => he hh.symm)]
        exact hu
      rw [ih (updateUserBalance st x.1 x.2) uid u hup,
        deltaSum_cons_ne uid x l1 he]
  | right h ih =>
    rename_i x l1 l2 l
    intro st uid u hu
    rw [show applyDeltas st (x :: l)
        = applyDeltas (updateUserBalance st x.1 x.2) l from rfl]
    by_cases he : x.1 = uid
    · have hup : getUser (updateUserBalance st x.1 x.2) uid
          = some ⟨u.id, u.balance + x.2⟩ := by
        rw [he, getUser_updateUserBalance, hu]
        rfl
      rw [ih (updateUserBalance st x.1 x.2) uid ⟨u.id, u.balance + x.2⟩ hup,
        deltaSum_cons_eq uid x l2 he]
      rw [show (⟨u.id, u.balance + x.2⟩ : User).balance
            + deltaSum uid l1 + deltaSum uid l2
          = u.balance + deltaSum uid l1 + (x.2 + deltaSum uid l2) from by
        show u.balance + x.2 + deltaSum uid l1 + deltaSum uid l2 = _
        omega]
    · have hup : getUser (updateUserBalance st x.1 x.2) uid = some u := by
        rw [getUser_updateUserBalance_ne st uid x.1 x.2
          (fun hh => he hh.symm)]
        exact hu
      rw [ih (updateUserBalance st x.1 x.2) uid u hup,
        deltaSum_cons_ne uid x l2 he]

/-- Claim C8 witness: balance 150, two concurrent 100-cent charges, one
interleaving: final balance -50, both deltas applied. -/
theorem c8_witness :
    getUser (applyDeltas c8Store [(1, -100), (1, -100)]) 1 = some ⟨1, -50⟩ :=
  c8_no_lost_update [(1, -100)] [(1, -100)] [(1, -100), (1, -100)]
    (Interleaving.left (Interleaving.right Interleaving.nil))
    c8Store 1 ⟨1, 150⟩ rfl

/-- Claim C9: when the PayPal capture call fails, the capture route
answers failure and the store is exactly unchanged (no balance mutation,
no transaction row); on success, the balance grows by toCents(amount) and
exactly one completed deposit row carrying the payment id is appended. -/
theorem c9_capture_failure_no_mutation :
    ∀ (st : Store) (userId now : Int),
      (∀ e : String,
        (apiBillingCapture st userId (Except.error e) now).1 = st ∧
        (apiBillingCapture st userId (Except.error e) now).2 = false) ∧
      (∀ c : CaptureResult,
        (apiBillingCapture st userId (Except.ok c) now).1.transactions
          = st.transactions ++
            [⟨userId, toCents c.amount, "USD", "completed", "deposit",
              some c.paymentId, now⟩] ∧
        balanceOf (apiBillingCapture st userId (Except.ok c) now).1 userId
          = (balanceOf st userId).map (fun b => b + toCents c.amount) ∧
        (apiBillingCapture st userId (Except.ok c) now).2 = true) := by
  intro st userId now
  refine ⟨fun e => ⟨rfl, rfl⟩, fun c => ⟨rfl, ?_, rfl⟩⟩
  rw [show (apiBillingCapture st userId (Except.ok c) now).1
      = createTransaction (updateUserBalance st userId (toCents c.amount))
          ⟨userId, toCents c.amount, "USD", "completed", "deposit",
            some c.paymentId, now⟩ from rfl]
  rw [show balanceOf (createTransaction (updateUserBalance st userId (toCents c.amount))
        ⟨userId, toCents c.amount, "USD", "completed", "deposit",
          some c.paymentId, now⟩) userId
      = balanceOf (updateUserBalance st userId (toCents c.amount)) userId from rfl]
  rw [balanceOf, getUser_updateUserBalance]
  rw [show balanceOf st userId
      = Option.map (fun u => u.balance) (getUser st userId) from rfl]
  cases hg : getUser st userId with
  | none => rfl
  | some u => rfl

/-- Claim C10: the hourly loop body never reads the lifecycle status (any
status value is charged or reclaimed identically), a missing owner row
takes the same reclaim branch as an insolvent one, while the bandwidth
settlement touches only status active servers: a store with no active
server settles to itself, the over-limit active server is charged 250
cents where the identical off server is not, servers with status off and
new are still hourly-charged, and the orphan server is torn down and
deleted. -/
theorem c10_status_scope :
    (∀ (r : TickResult) (s : Server) (now : Int) (newStatus : String),
        processServer r { s with status := newStatus } now
          = processServer r s now) ∧
    (∀ (r : TickResult) (s : Server) (now : Int),
        getUser r.store s.userId = none →
        processServer r s now = reclaimServer r s) ∧
    (∀ (r : TickResult) (s : Server) (now : Int) (u : User),
        getUser r.store s.userId = some u → u.balance < 100 →
        processServer r s now = reclaimServer r s) ∧
    (∀ (st : Store) (ps pe now : Int) (isLastDay : Bool),
        (∀ s ∈ st.servers, ¬ s.status = "active") →
        calculateBandwidthOverages st ps pe now isLastDay = st) ∧
    (calculateBandwidthOverages c10StoreOff 0 10 20 true = c10StoreOff ∧
      (calculateBandwidthOverages c10StoreOn 0 10 20 true).transactions
        = [bandwidthOverageTxn c10ServerOn 250 20] ∧
      (deductHourlyServerCosts c10OffNewStore 3).store.transactions
        = [hourlyChargeTxn 1 3, hourlyChargeTxn 2 3] ∧
      (deductHourlyServerCosts c10NoUserStore 4).store.servers = [] ∧
      (deductHourlyServerCosts c10NoUserStore 4).teardowns = ["dz"] ∧
      (deductHourlyServerCosts c10NoUserStore 4).store.transactions = []) := by
  refine ⟨?_, ?_, ?_, ?_, ?_, ?_, ?_, ?_, ?_, ?_⟩
  · intro r s now newStatus
    rfl
  · intro r s now h
    simp [processServer, h]
  · intro r s now u hg hb
    simp [processServer, hg, hb]
  · intro st ps pe now isLastDay h
    have hnil : activeServers st = [] := by
      rw [activeServers, List.filter_eq_nil_iff]
      intro a ha
      simp [h a ha]
    simp [calculateBandwidthOverages, hnil]
  · have hnil : activeServers c10StoreOff = [] := by decide
    simp [calculateBandwidthOverages, hnil]
  · have hact : activeServers c10StoreOn = [c10ServerOn] := by decide
    rw [show calculateBandwidthOverages c10StoreOn 0 10 20 true
        = settleList c10StoreOn (activeServers c10StoreOn) 0 10 20 by
      simp [calculateBandwidthOverages, hact]]
    rw [hact]
    rw [show settleList c10StoreOn [c10ServerOn] 0 10 20
        = processBandwidthOverage c10StoreOn c10ServerOn 0 10 20 from rfl]
    have hcur : (getServerBandwidth c10StoreOn c10ServerOn 0 10).current = 1100 := by
      rw [getServerBandwidth_current,
        show monthMetrics c10StoreOn c10ServerOn.id 0 10 = [c10Metric] from by decide]
      norm_num [c10Metric, round2, jsRound]
    have hcents : overageCents c10StoreOn c10ServerOn 0 10 = 250 := by
      rw [overageCents, hcur,
        show (getServerBandwidth c10StoreOn c10ServerOn 0 10).limit = 1000 from by decide,
        getServerBandwidth_rate]
      norm_num [jsRound, overageRate, getServerMonthlyPrice, sizePrices, c10ServerOn]
    have h1 : ¬ (getServerBandwidth c10StoreOn c10ServerOn 0 10).current
        ≤ ((getServerBandwidth c10StoreOn c10ServerOn 0 10).limit : ℚ) := by
      rw [hcur,
        show (getServerBandwidth c10StoreOn c10ServerOn 0 10).limit = 1000 from by decide]
      norm_num
    rw [processBandwidthOverage_eq, if_neg h1, hcents,
      if_neg (by norm_num : ¬ ((250 : Int) ≤ 0))]
    rfl
  · decide
  · decide
  · decide
  · decide

/-- Claim C10 witness: the missing-owner branch applied to the orphan
server, and the inactive-only settlement applied to the off store. -/
theorem c10_witness :
    processServer ⟨c10NoUserStore, []⟩ c10Orphan 0
        = reclaimServer ⟨c10NoUserStore, []⟩ c10Orphan ∧
    calculateBandwidthOverages c10StoreOff 0 10 20 true = c10StoreOff :=
  ⟨c10_status_scope.2.1 ⟨c10NoUserStore, []⟩ c10Orphan 0 (by decide),
   c10_status_scope.2.2.2.1 c10StoreOff 0 10 20 true (by decide)⟩

end SkyVps
